import Mathlib

/-!
Shallow embedding of the file-approval core of the
Agent-Based-Centralised-File-Deletion repository.

Source files embedded:
  * `src/frontend/models.py` — the `Agent` and `FileLog` SQLAlchemy models,
    rendered as Lean structures (timestamps as `Nat`, nullable columns as
    `Option Nat`, status columns as `String`).
  * `src/frontend/app.py` — the route handlers `files_preview`,
    `approve_deletion` and `reject_deletion`; the database table is a
    `List FileLog`, and a bulk `UPDATE ... WHERE id IN (...)` is a `List.map`
    that rewrites exactly the rows whose id is in the given list.

The request-layer error responses (HTTP 400) are rendered as a typed error
`AppError.InvalidInput`; the success payload of approve/reject carries the
count the route reports in its message, which is `len(file_ids)`.
-/

namespace FileDeletion

/-- `Agent` model from `src/frontend/models.py` lines 6-10. -/
structure Agent where
  id : Nat
  ip : String
  status : String
  last_seen : Option Nat
deriving DecidableEq, Repr

/-- `FileLog` model from `src/frontend/models.py` lines 12-19. -/
structure FileLog where
  id : Nat
  filename : String
  path : String
  agent_id : Nat
  status : String
  created_at : Nat
  approved_at : Option Nat
deriving DecidableEq, Repr

/-- The `filelog` table: the rows in insertion order. -/
abbrev Ledger := List FileLog

/-- The `agent` table. -/
abbrev Registry := List Agent

/-- Typed errors of the core operations (the routes answer them as HTTP 400;
`UnknownAgent` appears only in the spec-modelled `submit`). -/
inductive AppError where
  | InvalidInput
  | UnknownAgent
deriving DecidableEq, Repr

/-- `strStarts needle hay`: `needle` is an initial segment of `hay`. -/
def strStarts : List Char → List Char → Bool
  | [], _ => true
  | _ :: _, [] => false
  | a :: as, b :: bs => a == b && strStarts as bs

/-- `strSub needle hay`: `needle` occurs contiguously inside `hay`. -/
def strSub (needle : List Char) : List Char → Bool
  | [] => strStarts needle []
  | b :: bs => strStarts needle (b :: bs) || strSub needle bs

/-- The search-match semantics the spec claims (claim C5's words, not the
code): `needle` occurs in `hay` as a case-sensitive literal substring.
Compared against the program's `likeContains` in C5's counterexample. -/
def specContains (hay needle : String) : Bool :=
  strSub needle.toList hay.toList

/-- ASCII lower-casing as SQLite's default `LIKE` collation applies it:
only A-Z fold, all other characters are left alone. -/
def asciiLower (c : Char) : Char :=
  if 65 ≤ c.toNat ∧ c.toNat ≤ 90 then Char.ofNat (c.toNat + 32) else c

/-- Character comparison of SQLite's default `LIKE`:
ASCII-case-insensitive. -/
def likeCharEq (a b : Char) : Bool :=
  asciiLower a == asciiLower b

/-- All suffixes of a list, longest first. -/
def sufs : List Char → List (List Char)
  | [] => [[]]
  | c :: cs => (c :: cs) :: sufs cs

/-- SQL `LIKE` pattern matching as SQLite evaluates it by default: in the
pattern, `%` matches any run of characters (including the empty run), `_`
matches exactly one character, and any other character matches a single
text character ASCII-case-insensitively. -/
def likeMatch : List Char → List Char → Bool
  | [], t => t.isEmpty
  | '%' :: ps, t => (sufs t).any (fun t2 => likeMatch ps t2)
  | '_' :: _, [] => false
  | '_' :: ps, _ :: ts => likeMatch ps ts
  | _ :: _, [] => false
  | p :: ps, c :: ts => likeCharEq p c && likeMatch ps ts

/-- SQLAlchemy `column.contains(needle)` as the program runs it: the SQL
`column LIKE '%' || needle || '%'` with no autoescaping, on the SQLite
engine configured at `app.py` line 8 — ASCII-case-insensitive, with
unescaped `%`/`_` in `needle` acting as wildcards. -/
def likeContains (hay needle : String) : Bool :=
  likeMatch ('%' :: (needle.toList ++ ['%'])) hay.toList

/-- Python `str.strip()`: drop whitespace from both ends. -/
def pyStrip (s : String) : String :=
  String.mk
    (((s.toList.dropWhile Char.isWhitespace).reverse.dropWhile
      Char.isWhitespace).reverse)

/-- `files_preview` route, `src/frontend/app.py` lines 90-107: strip the
`search` parameter, keep rows with `status='pending'`, and if the stripped
search is non-empty keep rows whose `filename` or `path` contains it.
(The route additionally serializes each row together with its agent's ip;
only the selection of rows is modelled, which is what the claims concern.) -/
def files_preview (search : String) (files : Ledger) : Ledger :=
  let s := pyStrip search
  let pending := files.filter (fun f => f.status == "pending")
  if s = "" then pending
  else pending.filter (fun f => likeContains f.filename s || likeContains f.path s)

/-- `approve_deletion` route, `src/frontend/app.py` lines 112-133: reject an
empty `file_ids` list with a 400 (`InvalidInput`); otherwise take `now` once
and run the blind bulk update
`UPDATE filelog SET status='approved', approved_at=now WHERE id IN file_ids`,
then report `len(file_ids)` in the success message. -/
def approve_deletion (file_ids : List Nat) (now : Nat) (files : Ledger) :
    Except AppError (Ledger × Nat) :=
  if file_ids.isEmpty then
    Except.error AppError.InvalidInput
  else
    Except.ok
      (files.map (fun f =>
        if file_ids.contains f.id then
          { f with status := "approved", approved_at := some now }
        else f),
      file_ids.length)

/-- `reject_deletion` route, `src/frontend/app.py` lines 139-155: reject an
empty `file_ids` list with a 400 (`InvalidInput`); otherwise run the blind
bulk update `UPDATE filelog SET status='rejected' WHERE id IN file_ids`,
then report `len(file_ids)` in the success message. -/
def reject_deletion (file_ids : List Nat) (files : Ledger) :
    Except AppError (Ledger × Nat) :=
  if file_ids.isEmpty then
    Except.error AppError.InvalidInput
  else
    Except.ok
      (files.map (fun f =>
        if file_ids.contains f.id then { f with status := "rejected" } else f),
      file_ids.length)

/-- Modelled from the spec: the repository's `src/` has no `submit` operation
(only the `FileLog` model declares the columns; nothing in `app.py` creates a
`FileLog` outside mock seeding). Following §4.2 of the spec:
`owning_agent_id` must resolve via the Agent Registry (else `UnknownAgent`),
`filename`/`full_path` must be non-empty (else `InvalidInput`); on success a
new record with status `pending`, `created_at = now`, `approved_at = null` is
appended. The pair returned is (operation result, resulting table); on error
the table is unchanged. -/
def submit (filename full_path : String) (owning_agent_id : Nat)
    (now new_id : Nat) (agents : Registry) (files : Ledger) :
    Except AppError FileLog × Ledger :=
  if agents.all (fun a => a.id != owning_agent_id) then
    (Except.error AppError.UnknownAgent, files)
  else if filename = "" ∨ full_path = "" then
    (Except.error AppError.InvalidInput, files)
  else
    let r : FileLog :=
      { id := new_id, filename := filename, path := full_path,
        agent_id := owning_agent_id, status := "pending",
        created_at := now, approved_at := none }
    (Except.ok r, files ++ [r])

/-- One mutating call on the ledger, as issued by the request layer. -/
inductive Op where
  | approve (file_ids : List Nat) (now : Nat)
  | reject (file_ids : List Nat)
deriving DecidableEq, Repr

/-- The ledger after one call: a failed call (empty id list) leaves the
table unchanged. -/
def applyOp (o : Op) (files : Ledger) : Ledger :=
  match o with
  | .approve ids now =>
      match approve_deletion ids now files with
      | .ok (fs, _) => fs
      | .error _ => files
  | .reject ids =>
      match reject_deletion ids files with
      | .ok (fs, _) => fs
      | .error _ => files

/-- The ledger after a sequence of calls. -/
def runOps (ops : List Op) (files : Ledger) : Ledger :=
  ops.foldl (fun s o => applyOp o s) files

/-- How one call acts on one row (the bulk update is row-wise). -/
def recStep (o : Op) (f : FileLog) : FileLog :=
  match o with
  | .approve ids now =>
      if ids.isEmpty then f
      else if ids.contains f.id then
        { f with status := "approved", approved_at := some now }
      else f
  | .reject ids =>
      if ids.isEmpty then f
      else if ids.contains f.id then { f with status := "rejected" } else f

/-- How a sequence of calls acts on one row. -/
def track (ops : List Op) (f : FileLog) : FileLog :=
  ops.foldl (fun g o => recStep o g) f

theorem applyOp_eq_map (o : Op) (files : Ledger) :
    applyOp o files = files.map (recStep o) := by
  cases o with
  | approve ids now =>
      by_cases h : ids.isEmpty
      · have hid : recStep (Op.approve ids now) = fun f => f := by
          funext f; simp [recStep, h]
        simp [applyOp, approve_deletion, h, hid]
      · simp [applyOp, approve_deletion, recStep, h]
  | reject ids =>
      by_cases h : ids.isEmpty
      · have hid : recStep (Op.reject ids) = fun f => f := by
          funext f; simp [recStep, h]
        simp [applyOp, reject_deletion, h, hid]
      · simp [applyOp, reject_deletion, recStep, h]

theorem runOps_eq_map (ops : List Op) (files : Ledger) :
    runOps ops files = files.map (track ops) := by
  induction ops generalizing files with
  | nil =>
      have hid : track [] = fun f => f := by funext f; rfl
      simp [runOps, hid]
  | cons o os ih =>
      have h1 : runOps (o :: os) files = runOps os (applyOp o files) := rfl
      rw [h1, ih, applyOp_eq_map, List.map_map]
      rfl

/-- The spec's invariant I3 on one row, as stated (claim C4):
`approved_at` is non-null iff `status == approved`. -/
def InvIff (f : FileLog) : Prop :=
  f.approved_at ≠ none ↔ f.status = "approved"

/-- Invariant I3 over the whole table. -/
def InvIffLedger (files : Ledger) : Prop :=
  ∀ f ∈ files, InvIff f

/-- The direction of I3 the code actually maintains: an approved row has a
timestamp, and a pending row has none. A rejected row may keep a stale
timestamp, because `reject_deletion` never touches `approved_at`. -/
def InvRec (f : FileLog) : Prop :=
  (f.status = "approved" → f.approved_at ≠ none) ∧
  (f.status = "pending" → f.approved_at = none)

/-- The maintained invariant over the whole table. -/
def InvLedger (files : Ledger) : Prop :=
  ∀ f ∈ files, InvRec f

instance (f : FileLog) : Decidable (InvIff f) := by
  unfold InvIff; infer_instance

instance (files : Ledger) : Decidable (InvIffLedger files) := by
  unfold InvIffLedger; infer_instance

instance (f : FileLog) : Decidable (InvRec f) := by
  unfold InvRec; infer_instance

instance (files : Ledger) : Decidable (InvLedger files) := by
  unfold InvLedger; infer_instance

theorem recStep_invRec (o : Op) (f : FileLog) (h : InvRec f) :
    InvRec (recStep o f) := by
  cases o with
  | approve ids now =>
      by_cases he : ids.isEmpty
      · simpa [recStep, he] using h
      · by_cases hc : f.id ∈ ids
        · simp [recStep, he, hc, InvRec]
        · simpa [recStep, he, hc] using h
  | reject ids =>
      by_cases he : ids.isEmpty
      · simpa [recStep, he] using h
      · by_cases hc : f.id ∈ ids
        · simp [recStep, he, hc, InvRec]
        · simpa [recStep, he, hc] using h

theorem track_invRec (ops : List Op) (f : FileLog) (h : InvRec f) :
    InvRec (track ops f) := by
  induction ops generalizing f with
  | nil => simpa [track] using h
  | cons o os ih =>
      have h1 : track (o :: os) f = track os (recStep o f) := rfl
      rw [h1]
      exact ih _ (recStep_invRec o f h)

theorem recStep_status_ne_pending (o : Op) (f : FileLog)
    (h : f.status ≠ "pending") : (recStep o f).status ≠ "pending" := by
  cases o with
  | approve ids now =>
      by_cases he : ids.isEmpty
      · simpa [recStep, he] using h
      · by_cases hc : f.id ∈ ids
        · simp [recStep, he, hc]
        · simpa [recStep, he, hc] using h
  | reject ids =>
      by_cases he : ids.isEmpty
      · simpa [recStep, he] using h
      · by_cases hc : f.id ∈ ids
        · simp [recStep, he, hc]
        · simpa [recStep, he, hc] using h

/-- Claim C1 as stated is false on the code: the bulk update in
`approve_deletion` has no `status='pending'` guard, so a row found with a
non-pending status is not left unchanged. Concretely, approving id 1 while
row 1 is already `rejected` rewrites it to `approved` with a fresh
timestamp. -/
theorem C1_counterexample :
    applyOp (Op.approve [1] 7)
        [(⟨1, "a.txt", "/a", 1, "rejected", 0, none⟩ : FileLog)] =
      [(⟨1, "a.txt", "/a", 1, "approved", 0, some 7⟩ : FileLog)] ∧
    [(⟨1, "a.txt", "/a", 1, "rejected", 0, none⟩ : FileLog)] ≠
      [(⟨1, "a.txt", "/a", 1, "approved", 0, some 7⟩ : FileLog)] := by
  constructor
  · rfl
  · decide

/-- Claim C1 amended: a successful `approve` call sets status=approved and
approved_at=now on every row whose id is in `file_ids` regardless of its
current status; rows whose id is not in `file_ids` are unchanged, and ids
not present in the table cause no error. -/
theorem C1_amended (ids : List Nat) (now : Nat) (files fs : Ledger) (c : Nat)
    (h : approve_deletion ids now files = Except.ok (fs, c)) :
    fs.length = files.length ∧
    ∀ i (hi : i < files.length),
      (files[i].id ∈ ids →
        fs[i]? = some { files[i] with
          status := "approved", approved_at := some now }) ∧
      (files[i].id ∉ ids → fs[i]? = some files[i]) := by
  by_cases he : ids.isEmpty
  · simp [approve_deletion, he] at h
  · simp only [approve_deletion, he, Bool.false_eq_true, if_false,
      Except.ok.injEq, Prod.mk.injEq] at h
    obtain ⟨h1, h2⟩ := h
    subst h1
    refine ⟨by simp, ?_⟩
    intro i hi
    constructor
    · intro hc
      rw [List.getElem?_map, List.getElem?_eq_getElem hi]
      simp [hc]
    · intro hc
      rw [List.getElem?_map, List.getElem?_eq_getElem hi]
      simp [hc]

/-- Witness for `C1_amended` at a concrete call: approving ids `[1, 3]`
(3 absent from the table) over a one-row table. -/
theorem C1_amended_witness :
    (approve_deletion [1, 3] 9
        [(⟨1, "a.txt", "/a", 1, "pending", 0, none⟩ : FileLog)] =
      Except.ok
        ([(⟨1, "a.txt", "/a", 1, "approved", 0, some 9⟩ : FileLog)], 2)) ∧
    ([(⟨1, "a.txt", "/a", 1, "approved", 0, some 9⟩ : FileLog)].length =
      [(⟨1, "a.txt", "/a", 1, "pending", 0, none⟩ : FileLog)].length ∧
    ∀ i (hi : i <
        [(⟨1, "a.txt", "/a", 1, "pending", 0, none⟩ : FileLog)].length),
      ([(⟨1, "a.txt", "/a", 1, "pending", 0, none⟩ : FileLog)][i].id
          ∈ [1, 3] →
        [(⟨1, "a.txt", "/a", 1, "approved", 0, some 9⟩ : FileLog)][i]? =
          some { [(⟨1, "a.txt", "/a", 1, "pending", 0, none⟩ : FileLog)][i]
            with status := "approved", approved_at := some 9 }) ∧
      ([(⟨1, "a.txt", "/a", 1, "pending", 0, none⟩ : FileLog)][i].id
          ∉ [1, 3] →
        [(⟨1, "a.txt", "/a", 1, "approved", 0, some 9⟩ : FileLog)][i]? =
          some ([(⟨1, "a.txt", "/a", 1, "pending", 0, none⟩ : FileLog)][i]))) :=
  ⟨rfl, C1_amended [1, 3] 9 _ _ 2 rfl⟩

/-- Claim C2 as stated is false on the code: `approved` and `rejected` are
not absorbing. A row already in status `approved` (with its timestamp set)
is rewritten to `rejected` by a later `reject_deletion` call that lists its
id, so a subsequent call does change `f.status`. -/
theorem C2_counterexample :
    (⟨1, "a.txt", "/a", 1, "approved", 0, some 5⟩ : FileLog).status ≠
      "pending" ∧
    applyOp (Op.reject [1])
        [(⟨1, "a.txt", "/a", 1, "approved", 0, some 5⟩ : FileLog)] =
      [(⟨1, "a.txt", "/a", 1, "rejected", 0, some 5⟩ : FileLog)] ∧
    (⟨1, "a.txt", "/a", 1, "rejected", 0, some 5⟩ : FileLog).status ≠
      (⟨1, "a.txt", "/a", 1, "approved", 0, some 5⟩ : FileLog).status := by
  refine ⟨by decide, rfl, by decide⟩

/-- Claim C2 amended: the terminal statuses are not absorbing (a later call
listing the row's id overwrites its status, and approve overwrites
approved_at), but a row whose status is not `pending` never returns to
`pending` under any sequence of approve/reject calls; every call acts
row-wise, so the whole-table run is the row action `track` mapped over the
table. -/
theorem C2_amended (f : FileLog) (ops : List Op) (files : Ledger)
    (h : f.status ≠ "pending") :
    (track ops f).status ≠ "pending" ∧
    runOps ops files = files.map (track ops) := by
  constructor
  · induction ops generalizing f with
    | nil => simpa [track] using h
    | cons o os ih =>
        have h1 : track (o :: os) f = track os (recStep o f) := rfl
        rw [h1]
        exact ih _ (recStep_status_ne_pending o f h)
  · exact runOps_eq_map ops files

/-- Witness for `C2_amended`: a rejected row stays non-pending across an
approve call followed by a reject call. -/
theorem C2_amended_witness :
    (⟨1, "a.txt", "/a", 1, "rejected", 0, none⟩ : FileLog).status ≠
      "pending" ∧
    ((track [Op.approve [1] 4, Op.reject [1]]
        (⟨1, "a.txt", "/a", 1, "rejected", 0, none⟩ : FileLog)).status ≠
      "pending" ∧
    runOps [Op.approve [1] 4, Op.reject [1]]
        [(⟨1, "a.txt", "/a", 1, "rejected", 0, none⟩ : FileLog)] =
      [(⟨1, "a.txt", "/a", 1, "rejected", 0, none⟩ : FileLog)].map
        (track [Op.approve [1] 4, Op.reject [1]])) :=
  ⟨by decide,
   C2_amended (⟨1, "a.txt", "/a", 1, "rejected", 0, none⟩ : FileLog)
     [Op.approve [1] 4, Op.reject [1]]
     [(⟨1, "a.txt", "/a", 1, "rejected", 0, none⟩ : FileLog)] (by decide)⟩

/-- Claim C3 as stated is false on the code: the success message reports
`len(file_ids)`, not the number of rows actually transitioned. Approving
the single pending id 1 twice answers count 1 both times (the second call
does not answer 0). -/
theorem C3_counterexample :
    approve_deletion [1] 8
        (applyOp (Op.approve [1] 4)
          [(⟨1, "a.txt", "/a", 1, "pending", 0, none⟩ : FileLog)]) =
      Except.ok
        ([(⟨1, "a.txt", "/a", 1, "approved", 0, some 8⟩ : FileLog)], 1) ∧
    (1 : Nat) ≠ 0 := by
  refine ⟨rfl, by decide⟩

/-- Claim C3 amended: a successful `approve` or `reject` call reports the
number of ids supplied (`len(file_ids)`), whether or not the listed rows
exist or transition; in particular approving the same singleton twice
reports 1 both times. -/
theorem C3_amended (ids : List Nat) (now : Nat) (files : Ledger)
    (h : ids ≠ []) :
    (∃ fs, approve_deletion ids now files = Except.ok (fs, ids.length)) ∧
    (∃ fs, reject_deletion ids files = Except.ok (fs, ids.length)) := by
  have he : ids.isEmpty = false := by
    cases ids with
    | nil => exact absurd rfl h
    | cons a as => rfl
  exact ⟨⟨_, by rw [approve_deletion, he]; rfl⟩,
         ⟨_, by rw [reject_deletion, he]; rfl⟩⟩

/-- Witness for `C3_amended`: the second of the two calls of the claim's
scenario, on the already-approved one-row table. -/
theorem C3_amended_witness :
    ([1] : List Nat) ≠ [] ∧
    ((∃ fs, approve_deletion [1] 8
        [(⟨1, "a.txt", "/a", 1, "approved", 0, some 4⟩ : FileLog)] =
        Except.ok (fs, [1].length)) ∧
    (∃ fs, reject_deletion [1]
        [(⟨1, "a.txt", "/a", 1, "approved", 0, some 4⟩ : FileLog)] =
        Except.ok (fs, [1].length))) :=
  ⟨by decide,
   C3_amended [1] 8
     [(⟨1, "a.txt", "/a", 1, "approved", 0, some 4⟩ : FileLog)] (by decide)⟩

/-- Claim C4 as stated is false on the code: starting from a table that
satisfies invariant I3 (`approved_at` non-null iff status approved), the
observable point after `approve [1]` then `reject [1]` violates it — the
rejected row keeps its `approved_at`, because `reject_deletion` only writes
`status`. -/
theorem C4_counterexample :
    InvIffLedger [(⟨1, "a.txt", "/a", 1, "pending", 0, none⟩ : FileLog)] ∧
    ¬ InvIffLedger
        (runOps [Op.approve [1] 5, Op.reject [1]]
          [(⟨1, "a.txt", "/a", 1, "pending", 0, none⟩ : FileLog)]) := by
  refine ⟨by decide, by decide⟩

/-- Claim C4 amended: the direction of I3 the code maintains is
`status = approved → approved_at` non-null together with
`status = pending → approved_at` null; this is preserved by submit and by
every sequence of approve/reject calls. The full iff fails only in that a
row rejected after approval keeps its stale `approved_at`. -/
theorem C4_amended (agents : Registry) (files : Ledger)
    (h : InvLedger files) :
    (∀ fn fp aid now nid,
      InvLedger (submit fn fp aid now nid agents files).2) ∧
    (∀ ops, InvLedger (runOps ops files)) := by
  constructor
  · intro fn fp aid now nid
    by_cases ha : agents.all (fun a => a.id != aid)
    · simpa [submit, ha] using h
    · by_cases hv : fn = "" ∨ fp = ""
      · simpa [submit, ha, hv] using h
      · rw [submit, if_neg ha, if_neg hv]
        intro f hf
        rcases List.mem_append.mp hf with hf | hf
        · exact h f hf
        · rcases List.mem_singleton.mp hf with rfl
          exact ⟨by intro hst; simp at hst, fun _ => rfl⟩
  · intro ops
    rw [runOps_eq_map]
    intro f hf
    rcases List.mem_map.mp hf with ⟨g, hg, rfl⟩
    exact track_invRec ops g (h g hg)

/-- Witness for `C4_amended`: a one-row pending table, an empty registry
for submit's failure path, and the approve-then-reject op sequence. -/
theorem C4_amended_witness :
    InvLedger [(⟨1, "a.txt", "/a", 1, "pending", 0, none⟩ : FileLog)] ∧
    ((∀ fn fp aid now nid,
      InvLedger (submit fn fp aid now nid ([] : Registry)
        [(⟨1, "a.txt", "/a", 1, "pending", 0, none⟩ : FileLog)]).2) ∧
    (∀ ops, InvLedger (runOps ops
      [(⟨1, "a.txt", "/a", 1, "pending", 0, none⟩ : FileLog)]))) :=
  ⟨by decide,
   C4_amended ([] : Registry)
     [(⟨1, "a.txt", "/a", 1, "pending", 0, none⟩ : FileLog)] (by decide)⟩

/-- Claim C5 as stated is false on the code: the search runs as SQL
`LIKE '%search%'` on the SQLite engine of `app.py` line 8, which is
ASCII-case-insensitive and treats unescaped `%`/`_` as wildcards, not as a
case-sensitive literal substring test. Concretely, searching "A" returns
the pending row named "a.txt" although "A" is a case-sensitive substring of
neither its filename nor its path, and searching "_ata" returns the row
named "data.mat" although "_ata" occurs literally in neither field. -/
theorem C5_counterexample :
    ((⟨1, "a.txt", "/a", 1, "pending", 0, none⟩ : FileLog) ∈
        files_preview "A"
          [(⟨1, "a.txt", "/a", 1, "pending", 0, none⟩ : FileLog)] ∧
      specContains "a.txt" "A" = false ∧
      specContains "/a" "A" = false) ∧
    ((⟨2, "data.mat", "/d", 1, "pending", 0, none⟩ : FileLog) ∈
        files_preview "_ata"
          [(⟨2, "data.mat", "/d", 1, "pending", 0, none⟩ : FileLog)] ∧
      specContains "data.mat" "_ata" = false ∧
      specContains "/d" "_ata" = false) := by
  decide

/-- Claim C5 amended: with a provided non-empty (already whitespace-free)
search, `files_preview` returns exactly the rows with status `pending`
whose `filename` or `path` matches the SQL pattern `'%search%'` under
SQLite's default `LIKE` semantics (ASCII-case-insensitive, with unescaped
`%` matching any run and `_` matching any single character); with no
search, exactly the pending rows are returned. -/
theorem C5_amended (search : String) (files : Ledger) (f : FileLog)
    (hs : pyStrip search = search) :
    (search ≠ "" →
      (f ∈ files_preview search files ↔
        f ∈ files ∧ f.status = "pending" ∧
          (likeContains f.filename search = true ∨
           likeContains f.path search = true))) ∧
    (f ∈ files_preview "" files ↔ f ∈ files ∧ f.status = "pending") := by
  constructor
  · intro hne
    simp only [files_preview, hs]
    rw [if_neg hne]
    simp only [List.mem_filter, beq_iff_eq, Bool.or_eq_true]
    tauto
  · have ht : pyStrip "" = "" := rfl
    simp only [files_preview, ht, if_true, eq_self_iff_true,
      List.mem_filter, beq_iff_eq]

/-- Witness for `C5_amended`: searching "DATA" over a two-row table keeps
the pending row whose lower-case path matches it case-insensitively. -/
theorem C5_amended_witness :
    pyStrip "DATA" = "DATA" ∧
    ((("DATA" : String) ≠ "" →
      ((⟨2, "d.mat", "/home/data/d.mat", 1, "pending", 0, none⟩ : FileLog) ∈
          files_preview "DATA"
            [(⟨1, "a.txt", "/a", 1, "approved", 0, some 3⟩ : FileLog),
             (⟨2, "d.mat", "/home/data/d.mat", 1, "pending", 0, none⟩ :
               FileLog)] ↔
        (⟨2, "d.mat", "/home/data/d.mat", 1, "pending", 0, none⟩ : FileLog) ∈
            [(⟨1, "a.txt", "/a", 1, "approved", 0, some 3⟩ : FileLog),
             (⟨2, "d.mat", "/home/data/d.mat", 1, "pending", 0, none⟩ :
               FileLog)] ∧
          (⟨2, "d.mat", "/home/data/d.mat", 1, "pending", 0, none⟩ :
            FileLog).status = "pending" ∧
          (likeContains
              (⟨2, "d.mat", "/home/data/d.mat", 1, "pending", 0, none⟩ :
                FileLog).filename "DATA" = true ∨
           likeContains
              (⟨2, "d.mat", "/home/data/d.mat", 1, "pending", 0, none⟩ :
                FileLog).path "DATA" = true))) ∧
    ((⟨2, "d.mat", "/home/data/d.mat", 1, "pending", 0, none⟩ : FileLog) ∈
        files_preview ""
          [(⟨1, "a.txt", "/a", 1, "approved", 0, some 3⟩ : FileLog),
           (⟨2, "d.mat", "/home/data/d.mat", 1, "pending", 0, none⟩ :
             FileLog)] ↔
      (⟨2, "d.mat", "/home/data/d.mat", 1, "pending", 0, none⟩ : FileLog) ∈
          [(⟨1, "a.txt", "/a", 1, "approved", 0, some 3⟩ : FileLog),
           (⟨2, "d.mat", "/home/data/d.mat", 1, "pending", 0, none⟩ :
             FileLog)] ∧
        (⟨2, "d.mat", "/home/data/d.mat", 1, "pending", 0, none⟩ :
          FileLog).status = "pending")) :=
  ⟨by decide,
   C5_amended "DATA"
     [(⟨1, "a.txt", "/a", 1, "approved", 0, some 3⟩ : FileLog),
      (⟨2, "d.mat", "/home/data/d.mat", 1, "pending", 0, none⟩ : FileLog)]
     (⟨2, "d.mat", "/home/data/d.mat", 1, "pending", 0, none⟩ : FileLog)
     (by decide)⟩

/-- Claim C6 (spec-modelled `submit`): an unresolvable `owning_agent_id`
fails with `UnknownAgent` and leaves the table unchanged; an empty
`filename` or `full_path` (with the agent resolvable) fails with
`InvalidInput` and leaves the table unchanged. -/
theorem C6_submit (fn fp : String) (aid now nid : Nat)
    (agents : Registry) (files : Ledger) :
    ((∀ a ∈ agents, a.id ≠ aid) →
      submit fn fp aid now nid agents files =
        (Except.error AppError.UnknownAgent, files)) ∧
    ((∃ a ∈ agents, a.id = aid) → (fn = "" ∨ fp = "") →
      submit fn fp aid now nid agents files =
        (Except.error AppError.InvalidInput, files)) := by
  constructor
  · intro h
    have ha : agents.all (fun a => a.id != aid) = true := by
      rw [List.all_eq_true]
      intro a hmem
      exact bne_iff_ne.mpr (h a hmem)
    simp [submit, ha]
  · rintro ⟨a, ha, rfl⟩ hv
    have hall : ¬ (agents.all (fun x => x.id != a.id) = true) := by
      intro hb
      have := List.all_eq_true.mp hb a ha
      simp at this
    rw [submit, if_neg hall, if_pos hv]

/-- Witness for `C6_submit`: registry with agent 1 only; submitting for
agent 999 fails with `UnknownAgent`, submitting an empty filename for
agent 1 fails with `InvalidInput`; both leave the empty table empty. -/
theorem C6_submit_witness :
    (submit "f.txt" "/tmp/f.txt" 999 0 1
        [(⟨1, "10.0.0.1", "online", some 0⟩ : Agent)] [] =
      (Except.error AppError.UnknownAgent, ([] : Ledger))) ∧
    (submit "" "/tmp/f.txt" 1 0 1
        [(⟨1, "10.0.0.1", "online", some 0⟩ : Agent)] [] =
      (Except.error AppError.InvalidInput, ([] : Ledger))) :=
  ⟨(C6_submit "f.txt" "/tmp/f.txt" 999 0 1
      [(⟨1, "10.0.0.1", "online", some 0⟩ : Agent)] []).1 (by decide),
   (C6_submit "" "/tmp/f.txt" 1 0 1
      [(⟨1, "10.0.0.1", "online", some 0⟩ : Agent)] []).2
     ⟨(⟨1, "10.0.0.1", "online", some 0⟩ : Agent), by simp, rfl⟩
     (Or.inl rfl)⟩

/-- Claim C7: an empty `file_ids` list makes both `approve_deletion` and
`reject_deletion` fail with `InvalidInput` (the routes answer 400), and the
table after such a failed call is unchanged. -/
theorem C7_empty_ids (now : Nat) (files : Ledger) :
    approve_deletion [] now files = Except.error AppError.InvalidInput ∧
    reject_deletion [] files = Except.error AppError.InvalidInput ∧
    applyOp (Op.approve [] now) files = files ∧
    applyOp (Op.reject []) files = files :=
  ⟨rfl, rfl, rfl, rfl⟩

/-- Claim C8: a successful `reject` call rewrites only the `status` field of
the rows whose id it lists (to `"rejected"`, keeping `approved_at`,
`filename`, `path`, `agent_id`, `created_at`), and leaves every row whose id
it does not list entirely unchanged. -/
theorem C8_reject_frame (ids : List Nat) (files fs : Ledger) (c : Nat)
    (h : reject_deletion ids files = Except.ok (fs, c)) :
    fs.length = files.length ∧
    ∀ i (hi : i < files.length),
      (files[i].id ∈ ids →
        fs[i]? = some { files[i] with status := "rejected" }) ∧
      (files[i].id ∉ ids → fs[i]? = some files[i]) := by
  by_cases he : ids.isEmpty
  · simp [reject_deletion, he] at h
  · simp only [reject_deletion, he, Bool.false_eq_true, if_false,
      Except.ok.injEq, Prod.mk.injEq] at h
    obtain ⟨h1, h2⟩ := h
    subst h1
    refine ⟨by simp, ?_⟩
    intro i hi
    constructor
    · intro hc
      rw [List.getElem?_map, List.getElem?_eq_getElem hi]
      simp [hc]
    · intro hc
      rw [List.getElem?_map, List.getElem?_eq_getElem hi]
      simp [hc]

/-- Witness for `C8_reject_frame`: rejecting ids `[1, 3]` over a one-row
table whose row is already approved. -/
theorem C8_reject_frame_witness :
    (reject_deletion [1, 3]
        [(⟨1, "a.txt", "/a", 1, "approved", 2, some 5⟩ : FileLog)] =
      Except.ok
        ([(⟨1, "a.txt", "/a", 1, "rejected", 2, some 5⟩ : FileLog)], 2)) ∧
    ([(⟨1, "a.txt", "/a", 1, "rejected", 2, some 5⟩ : FileLog)].length =
      [(⟨1, "a.txt", "/a", 1, "approved", 2, some 5⟩ : FileLog)].length ∧
    ∀ i (hi : i <
        [(⟨1, "a.txt", "/a", 1, "approved", 2, some 5⟩ : FileLog)].length),
      ([(⟨1, "a.txt", "/a", 1, "approved", 2, some 5⟩ : FileLog)][i].id
          ∈ [1, 3] →
        [(⟨1, "a.txt", "/a", 1, "rejected", 2, some 5⟩ : FileLog)][i]? =
          some { [(⟨1, "a.txt", "/a", 1, "approved", 2, some 5⟩ :
            FileLog)][i] with status := "rejected" }) ∧
      ([(⟨1, "a.txt", "/a", 1, "approved", 2, some 5⟩ : FileLog)][i].id
          ∉ [1, 3] →
        [(⟨1, "a.txt", "/a", 1, "rejected", 2, some 5⟩ : FileLog)][i]? =
          some ([(⟨1, "a.txt", "/a", 1, "approved", 2, some 5⟩ :
            FileLog)][i]))) :=
  ⟨rfl, C8_reject_frame [1, 3] _ _ 2 rfl⟩

/-- Claim C9: a single successful `approve` call takes one timestamp before
the bulk update, so every row it rewrites carries the same `approved_at`,
namely `some now`; in particular any two rewritten rows agree on it. -/
theorem C9_shared_timestamp (ids : List Nat) (now : Nat)
    (files fs : Ledger) (c : Nat)
    (h : approve_deletion ids now files = Except.ok (fs, c)) :
    (∀ f ∈ fs, f.id ∈ ids → f.approved_at = some now) ∧
    (∀ f ∈ fs, ∀ g ∈ fs, f.id ∈ ids → g.id ∈ ids →
      f.approved_at = g.approved_at) := by
  by_cases he : ids.isEmpty
  · simp [approve_deletion, he] at h
  · simp only [approve_deletion, he, Bool.false_eq_true, if_false,
      Except.ok.injEq, Prod.mk.injEq] at h
    obtain ⟨h1, h2⟩ := h
    subst h1
    have key : ∀ f ∈ files.map (fun f =>
        if ids.contains f.id then
          { f with status := "approved", approved_at := some now }
        else f), f.id ∈ ids → f.approved_at = some now := by
      intro f hf hfid
      rcases List.mem_map.mp hf with ⟨a, _, rfl⟩
      by_cases hc : a.id ∈ ids
      · simp [hc]
      · simp [hc] at hfid
    exact ⟨key, fun f hf g hg hfi hgi => by
      rw [key f hf hfi, key g hg hgi]⟩

/-- Witness for `C9_shared_timestamp`: approving ids `[1, 2]` over a table
with a pending row and an already-rejected row; both end with the same
timestamp. -/
theorem C9_shared_timestamp_witness :
    (approve_deletion [1, 2] 6
        [(⟨1, "a.txt", "/a", 1, "pending", 0, none⟩ : FileLog),
         (⟨2, "b.txt", "/b", 1, "rejected", 0, none⟩ : FileLog)] =
      Except.ok
        ([(⟨1, "a.txt", "/a", 1, "approved", 0, some 6⟩ : FileLog),
          (⟨2, "b.txt", "/b", 1, "approved", 0, some 6⟩ : FileLog)], 2)) ∧
    ((∀ f ∈ [(⟨1, "a.txt", "/a", 1, "approved", 0, some 6⟩ : FileLog),
             (⟨2, "b.txt", "/b", 1, "approved", 0, some 6⟩ : FileLog)],
        f.id ∈ [1, 2] → f.approved_at = some 6) ∧
    (∀ f ∈ [(⟨1, "a.txt", "/a", 1, "approved", 0, some 6⟩ : FileLog),
            (⟨2, "b.txt", "/b", 1, "approved", 0, some 6⟩ : FileLog)],
      ∀ g ∈ [(⟨1, "a.txt", "/a", 1, "approved", 0, some 6⟩ : FileLog),
             (⟨2, "b.txt", "/b", 1, "approved", 0, some 6⟩ : FileLog)],
        f.id ∈ [1, 2] → g.id ∈ [1, 2] →
          f.approved_at = g.approved_at)) :=
  ⟨rfl,
   C9_shared_timestamp [1, 2] 6
     [(⟨1, "a.txt", "/a", 1, "pending", 0, none⟩ : FileLog),
      (⟨2, "b.txt", "/b", 1, "rejected", 0, none⟩ : FileLog)]
     [(⟨1, "a.txt", "/a", 1, "approved", 0, some 6⟩ : FileLog),
      (⟨2, "b.txt", "/b", 1, "approved", 0, some 6⟩ : FileLog)] 2 rfl⟩

/-- Claim C10: `files_preview` strips the search parameter first, so a
whitespace-only search selects the same rows as an absent (empty) search:
all pending rows. -/
theorem C10_whitespace_search (s : String) (files : Ledger)
    (h : pyStrip s = "") :
    files_preview s files = files_preview "" files := by
  have ht : pyStrip "" = "" := rfl
  simp [files_preview, h, ht]

/-- Witness for `C10_whitespace_search`: a three-space search over a
one-row table. -/
theorem C10_whitespace_search_witness :
    pyStrip "   " = "" ∧
    files_preview "   "
        [(⟨1, "a.txt", "/a", 1, "pending", 0, none⟩ : FileLog)] =
      files_preview ""
        [(⟨1, "a.txt", "/a", 1, "pending", 0, none⟩ : FileLog)] :=
  ⟨by decide,
   C10_whitespace_search "   "
     [(⟨1, "a.txt", "/a", 1, "pending", 0, none⟩ : FileLog)] (by decide)⟩

end FileDeletion
